import Mathlib

/-!
Verification of the allama evaluation and scoring engine.

Python strings are embedded as `List Char` (`PyStr`); `str.find`, `str.split`,
`str.strip`, `str.lower` and `str.count` are embedded as executable functions
on `PyStr` with Python's semantics.  Rational numbers stand for Python floats
(every arithmetic step used by the claims is exact).  The stateful pieces
(the sandbox subprocess and the temporary file) are embedded by explicit
outcome passing: the result of `subprocess.run` is a `RunOutcome` value and
the temporary file's existence is threaded through `check_execution`.
-/

namespace Allama

/-- Python strings, embedded as lists of characters. -/
abbrev PyStr := List Char

/-- Membership test for Python whitespace as used by `str.strip()`
(restricted to the ASCII whitespace characters). -/
def isStripSpace (c : Char) : Bool :=
  (c == ' ') || (c == '\t') || (c == '\n') || (c == '\r') || (c == '\x0b') || (c == '\x0c')

/-- Left part of Python `str.strip()`: drop leading whitespace. -/
def lstrip (l : PyStr) : PyStr := l.dropWhile isStripSpace

/-- Right part of Python `str.strip()`: drop trailing whitespace. -/
def rstrip (l : PyStr) : PyStr := (l.reverse.dropWhile isStripSpace).reverse

/-- Python `str.strip()`. -/
def strip (l : PyStr) : PyStr := rstrip (lstrip l)

/-- Python `str.lower()` (ASCII case folding suffices for every input used here). -/
def lower (l : PyStr) : PyStr := l.map Char.toLower

/-- Python `str.find(sub)`: index of the leftmost occurrence of `pat`, if any.
Python returns `-1` when there is no occurrence; we return `none`. -/
def findSub : PyStr → PyStr → Option Nat
  | [], pat => if pat.isEmpty then some 0 else none
  | c :: rest, pat =>
    if pat.isPrefixOf (c :: rest) then some 0
    else (findSub rest pat).map (· + 1)

/-- Python `sub in s`: substring containment. -/
def containsSub (t pat : PyStr) : Bool := (findSub t pat).isSome

/-- Python `str.split(sep)` for a single-character separator. -/
def splitChar (sep : Char) : PyStr → List PyStr
  | [] => [[]]
  | c :: rest =>
    if c == sep then [] :: splitChar sep rest
    else
      match splitChar sep rest with
      | [] => [[c]]
      | h :: t => (c :: h) :: t

/-- Python `sep.join(parts)` for a single-character separator. -/
def joinChar (sep : Char) : List PyStr → PyStr
  | [] => []
  | [l] => l
  | l :: ls => l ++ sep :: joinChar sep ls

/-- Worker for `splitOnSub`; the fuel is an upper bound on the length of the
text still to scan, so the recursion is structural. -/
def splitSubFuel (pat : PyStr) : Nat → PyStr → PyStr → List PyStr
  | _, [], acc => [acc.reverse]
  | 0, t, acc => [acc.reverse ++ t]
  | fuel + 1, c :: rest, acc =>
    if pat.isPrefixOf (c :: rest) then
      acc.reverse :: splitSubFuel pat fuel (rest.drop (pat.length - 1)) []
    else
      splitSubFuel pat fuel rest (c :: acc)

/-- Python `str.split(sep)` for a non-empty multi-character separator:
non-overlapping leftmost-first splitting. -/
def splitOnSub (t pat : PyStr) : List PyStr := splitSubFuel pat t.length t []

/-- Python `str.count(sub)`: number of non-overlapping occurrences. -/
def countSub (t pat : PyStr) : Nat := (splitOnSub t pat).length - 1

/-- Fence markers and language tags used by the extractor. -/
def fencePython : PyStr := ("```python").data

/-- The generic fence marker. -/
def fence : PyStr := ("```").data

/-- The language word checked against the first line of a fenced segment. -/
def wordPython : PyStr := ("python").data

/-- The short language word checked against the first line of a fenced segment. -/
def wordPy : PyStr := ("py").data

/-- Fallback branch of `CodeEvaluator.extract_python_code`
(src/allama/evaluator.py lines 35-47): split on the generic fence marker;
the loop returns at the first odd index, i.e. on segment 1, stripping its
first line when that line mentions the language; if there is no fence at
all, return the whole text stripped. -/
def genericFence (t : PyStr) : PyStr :=
  if containsSub t fence then
    match (splitOnSub t fence).drop 1 with
    | [] => strip t
    | part :: _ =>
      match splitChar '\n' (strip part) with
      | [] => strip part
      | l0 :: rest =>
        if containsSub (lower l0) wordPython || containsSub (lower l0) wordPy then
          strip (joinChar '\n' rest)
        else
          strip part
  else
    strip t

/-- Embedding of `CodeEvaluator.extract_python_code`
(src/allama/evaluator.py lines 26-47): if a `python`-tagged fence occurs and
a closing fence follows it, return the text strictly between them stripped;
otherwise fall back to `genericFence`.  The offset 9 is the length of the
literal marker searched by the source. -/
def extract_python_code (t : PyStr) : PyStr :=
  match findSub t fencePython with
  | some i =>
    match findSub (t.drop (i + 9)) fence with
    | some j => strip ((t.drop (i + 9)).take j)
    | none => genericFence t
  | none => genericFence t

/-- Blank characters a Python source line may consist of while still being a
token-free line (space, tab, CR, LF). -/
def isBlankChar (c : Char) : Bool :=
  (c == ' ') || (c == '\t') || (c == '\n') || (c == '\r')

/-- The keyword statement recognised by the parser fragment. -/
def passWord : PyStr := ("pass").data

/-- Whether a single source line is accepted by the parser fragment:
either blank, or the statement `pass` (possibly with trailing blanks). -/
def lineOk (l : PyStr) : Bool :=
  l.all isBlankChar || (passWord.isPrefixOf l && (l.drop 4).all isBlankChar)

/-- Model of CPython `ast.parse` success (the external parser invoked by
`CodeEvaluator.check_syntax`), restricted to the fragment this development
evaluates it on.  CPython's top-level grammar is `file: [statements] ENDMARKER`,
so a source whose lines are all blank parses as the empty module, a source
whose non-blank lines are each the unindented statement `pass` parses, and a
lone `def` keyword is a syntax error.  The model accepts exactly the sources
of that fragment; on sources outside the fragment it conservatively reports
failure, and no theorem below relies on its value outside the fragment. -/
def pyParseOk (code : PyStr) : Bool :=
  (splitChar '\n' code).all lineOk

/-- Embedding of `CodeEvaluator.check_syntax` (src/allama/evaluator.py
lines 49-55): `ast.parse` the text, reporting `False` on `SyntaxError`. -/
def check_syntax (code : PyStr) : Bool := pyParseOk code

/-- Outcome of the `subprocess.run` call inside `check_execution`: normal
completion with an exit status and captured streams, a
`subprocess.TimeoutExpired`, or some other exception. -/
inductive RunOutcome where
  | completed (returncode : Int) (stdout_text stderr_text : PyStr)
  | timedOut
  | raised (message : PyStr)
deriving DecidableEq

/-- Result of `check_execution` together with the state of the temporary
file after the call returns. -/
structure ExecOutcome where
  ran_without_error : Bool
  output : PyStr
  temp_file_exists : Bool
deriving DecidableEq

/-- The fixed diagnostic returned on timeout by the source. -/
def timeout_message : PyStr := ("Timeout - kod wykonywał się zbyt długo").data

/-- Embedding of `CodeEvaluator.check_execution` (src/allama/evaluator.py
lines 57-82).  The temporary file has been created (it exists when
`subprocess.run` starts); `os.unlink` is executed only on the straight-line
path after `subprocess.run` returns, so both exception handlers return with
the file still in place. -/
def check_execution (outcome : RunOutcome) : ExecOutcome :=
  match outcome with
  | .completed rc out err =>
    if rc = 0 then ⟨true, out, false⟩ else ⟨false, err, false⟩
  | .timedOut => ⟨false, timeout_message, true⟩
  | .raised msg => ⟨false, msg, true⟩

/-- Embedding of the metrics dictionary built by
`CodeEvaluator.analyze_code_quality` (src/allama/evaluator.py lines 84-97). -/
structure QualityMetrics where
  line_count : Nat
  has_function_def : Bool
  has_class_def : Bool
  has_docstring : Bool
  has_comments : Bool
  has_error_handling : Bool
  imports_used : Nat
deriving DecidableEq

/-- Three single quotes, built from character codes. -/
def tripleSingleQuote : PyStr := List.replicate 3 (Char.ofNat 39)

/-- Embedding of `CodeEvaluator.analyze_code_quality`
(src/allama/evaluator.py lines 84-97). -/
def analyze_code_quality (code : PyStr) : QualityMetrics :=
  { line_count := ((splitChar '\n' code).filter (fun l => !(strip l).isEmpty)).length
  , has_function_def := containsSub code (("def ").data)
  , has_class_def := containsSub code (("class ").data)
  , has_docstring := containsSub code (("\"\"\"").data) || containsSub code tripleSingleQuote
  , has_comments := containsSub code (("#").data)
  , has_error_handling :=
      containsSub code (("try:").data) || containsSub code (("except:").data) ||
      containsSub code (("raise").data) || containsSub code (("assert").data)
  , imports_used := countSub code (("import ").data) + countSub code (("from ").data) }

/-- Embedding of the results dictionary built by
`CodeEvaluator.evaluate_code` (src/allama/evaluator.py lines 99-133). -/
structure EvalRecord where
  code : PyStr
  response_time : ℚ
  syntax_valid : Bool
  runs_without_error : Bool
  execution_output : PyStr
  quality_metrics : QualityMetrics
  contains_expected_keywords : Bool
  keyword_match_ratio : ℚ
  found_keywords : List PyStr
  expected_keywords : List PyStr
deriving DecidableEq

/-- Embedding of `CodeEvaluator.evaluate_code` (src/allama/evaluator.py
lines 99-133).  The behaviour of the sandboxed subprocess depends on the
operating system, so it enters as the parameter `run`; the executor itself
is the embedded `check_execution` applied to that outcome. -/
def evaluate_code (run : PyStr → RunOutcome) (code : PyStr)
    (expected_keywords : List PyStr) (response_time : ℚ) : EvalRecord :=
  let sv := check_syntax code
  let exec_pair : Bool × PyStr :=
    if sv then
      let res := check_execution (run code)
      (res.ran_without_error, res.output)
    else
      (false, [])
  let code_lower := lower code
  let found := (expected_keywords.filter fun kw => containsSub code_lower (lower kw)).map lower
  { code := code
  , response_time := response_time
  , syntax_valid := sv
  , runs_without_error := exec_pair.1
  , execution_output := exec_pair.2
  , quality_metrics := analyze_code_quality code
  , contains_expected_keywords :=
      if expected_keywords.isEmpty then true else decide (0 < found.length)
  , keyword_match_ratio :=
      if expected_keywords.isEmpty then 1
      else (found.length : ℚ) / (expected_keywords.length : ℚ)
  , found_keywords := found
  , expected_keywords := expected_keywords }

/-- One row of `self.results` as consumed by `LLMTester._calculate_statistics`
(src/allama/main.py lines 387-427): model name, transport success flag,
response time, and the evaluation body when one was produced.  Model names
are only compared for equality, so they are embedded as Lean strings. -/
structure TestResult where
  model_name : String
  success : Bool
  response_time : ℚ
  evaluation : Option EvalRecord
deriving DecidableEq

/-- The per-test score computed inline by `LLMTester._calculate_statistics`
(src/allama/main.py lines 402-412): 2 points each for valid syntax and
error-free execution, 1 point each for expected keywords, a function
definition, error handling and a docstring. -/
def result_score (ev : EvalRecord) : Nat :=
  (if ev.syntax_valid then 2 else 0) +
  (if ev.runs_without_error then 2 else 0) +
  (if ev.contains_expected_keywords then 1 else 0) +
  (if ev.quality_metrics.has_function_def then 1 else 0) +
  (if ev.quality_metrics.has_error_handling then 1 else 0) +
  (if ev.quality_metrics.has_docstring then 1 else 0)

/-- First-occurrence deduplication, used to embed
`models = set(r['model_name'] for r in self.results)`.  A Python set has an
arbitrary iteration order; this embedding fixes first-occurrence order, one
of the reachable orders, and no theorem below depends on which order the
set yields beyond membership. -/
def dedupAcc (seen : List String) : List String → List String
  | [] => []
  | x :: xs =>
    if seen.contains x then dedupAcc seen xs
    else x :: dedupAcc (x :: seen) xs

/-- The distinct model names occurring in a result list. -/
def modelsOf (results : List TestResult) : List String :=
  dedupAcc [] (results.map fun r => r.model_name)

/-- The successful attempts of one model:
`[r for r in self.results if r['model_name'] == model and r['success']]`. -/
def successful_for (results : List TestResult) (m : String) : List TestResult :=
  results.filter fun r => r.model_name == m && r.success

/-- All attempts of one model:
`[r for r in self.results if r['model_name'] == model]`. -/
def attempts_for (results : List TestResult) (m : String) : List TestResult :=
  results.filter fun r => r.model_name == m

/-- The per-model statistics record built by `LLMTester._calculate_statistics`
(src/allama/main.py lines 414-419). -/
structure ModelScore where
  avg_score : ℚ
  success_rate : ℚ
  avg_response_time : ℚ
deriving DecidableEq

/-- The entry `_calculate_statistics` stores for a model that has at least
one successful attempt (src/allama/main.py lines 400-419). -/
def model_entry (results : List TestResult) (m : String) : ModelScore :=
  let mrs := successful_for results m
  let scores := mrs.filterMap fun r => r.evaluation.map fun ev => (result_score ev : ℚ)
  { avg_score := if scores.isEmpty then 0 else scores.sum / (scores.length : ℚ)
  , success_rate := (mrs.length : ℚ) / ((attempts_for results m).length : ℚ) * 100
  , avg_response_time := (mrs.map fun r => r.response_time).sum / (mrs.length : ℚ) }

/-- The `model_scores` mapping built by `LLMTester._calculate_statistics`
(src/allama/main.py lines 397-419): iterate over the model set and store an
entry only when the model has at least one successful attempt (the source
guards the body with `if model_results:`). -/
def model_scores (results : List TestResult) : List (String × ModelScore) :=
  (modelsOf results).filterMap fun m =>
    if (successful_for results m).isEmpty then none
    else some (m, model_entry results m)

/-- The comparison passed to `sorted(..., key=lambda x: x[1]['avg_score'],
reverse=True)` in `LLMTester._generate_ranking_table` (src/allama/main.py
line 432): `a` may precede `b` exactly when `a`'s average score is at least
`b`'s.  No other field takes part in the comparison. -/
def rankLe (a b : String × ModelScore) : Prop :=
  b.2.avg_score ≤ a.2.avg_score

instance : DecidableRel rankLe := fun a b =>
  inferInstanceAs (Decidable (b.2.avg_score ≤ a.2.avg_score))

instance : IsTotal (String × ModelScore) rankLe :=
  ⟨fun a b => le_total b.2.avg_score a.2.avg_score⟩

instance : IsTrans (String × ModelScore) rankLe :=
  ⟨fun _ _ _ hab hbc => le_trans hbc hab⟩

/-- Embedding of the ordering produced by `LLMTester._generate_ranking_table`
(src/allama/main.py lines 429-457): Python's `sorted` is a stable sort, and a
stable sort is uniquely determined by its comparison, so it is embedded as a
stable insertion sort on the items of `model_scores`; the table then lists
the result in order, numbering positions from 1. -/
def sorted_models (ms : List (String × ModelScore)) : List (String × ModelScore) :=
  List.insertionSort rankLe ms

/-- The default weight table shipped in `DEFAULT_CONFIG['evaluation_weights']`
(src/allama/config_loader.py lines 16-25; the same table appears as
`EVALUATION_WEIGHTS` in src/config.py lines 41-51), in source order. -/
def default_evaluation_weights : List (String × ℚ) :=
  [(("syntax_valid"), 3)
  , (("runs_without_error"), 5/2)
  , (("contains_expected_keywords"), 2)
  , (("has_function_def"), 3/2)
  , (("has_error_handling"), 1)
  , (("has_docstring"), 1)
  , (("has_imports"), 1/2)
  , (("code_length_reasonable"), 1/2)]

/-- Numeric value of a boolean in Python arithmetic. -/
def boolVal (b : Bool) : ℚ := if b then 1 else 0

/-- Model of `key in evaluation` followed by `evaluation[key]` on the
dictionary built by `evaluate_code`, for the numeric- and boolean-valued
top-level keys.  The remaining top-level keys (`code`, `execution_output`,
`quality_metrics`, `found_keywords`, `expected_keywords`) hold strings,
lists or nested dictionaries; multiplying them by a float weight would raise
`TypeError` in Python, and no weight table used below names them, so they
are modelled as absent.  The quality metrics live one level down inside
`quality_metrics` and are therefore not top-level keys. -/
def evalNumField (ev : EvalRecord) (key : String) : Option ℚ :=
  if key == "syntax_valid" then some (boolVal ev.syntax_valid)
  else if key == "runs_without_error" then some (boolVal ev.runs_without_error)
  else if key == "contains_expected_keywords" then some (boolVal ev.contains_expected_keywords)
  else if key == "response_time" then some ev.response_time
  else if key == "keyword_match_ratio" then some ev.keyword_match_ratio
  else none

/-- Embedding of `ReportGenerator._calculate_score`
(src/allama/report_generator.py lines 150-172): iterate over the weight
table and add `evaluation[key] * weight` for every key present at the top
level of the evaluation dictionary; absent keys contribute nothing. -/
def calculate_score (weights : List (String × ℚ)) (ev : EvalRecord) : ℚ :=
  weights.foldl
    (fun acc kw =>
      match evalNumField ev kw.1 with
      | some v => acc + v * kw.2
      | none => acc)
    0

/-! Helper lemmas. -/

/-- Every line produced by `splitChar` draws its characters from the input. -/
lemma splitChar_all_of_all {p : Char → Bool} {sep : Char} :
    ∀ {s : PyStr}, s.all p = true →
      (splitChar sep s).all (fun l => l.all p) = true := by
  intro s
  induction s with
  | nil => intro _; simp [splitChar]
  | cons c rest ih =>
    intro h
    rw [List.all_cons, Bool.and_eq_true] at h
    by_cases hc : c == sep
    · simp only [splitChar, hc, if_pos]
      simpa using ih h.2
    · simp only [splitChar, hc, if_neg, Bool.not_eq_true]
      have hrest := ih h.2
      cases hsp : splitChar sep rest with
      | nil => simp [h.1]
      | cons l ls =>
        rw [hsp, List.all_cons, Bool.and_eq_true] at hrest
        simp [h.1, hrest.1, hrest.2]

/-- A whitespace-only source consists of lines that the parser fragment
accepts as blank. -/
lemma pyParseOk_of_blank {s : PyStr} (h : s.all isBlankChar = true) :
    pyParseOk s = true := by
  unfold pyParseOk
  have hall := @splitChar_all_of_all isBlankChar '\n' s h
  rw [List.all_eq_true] at hall ⊢
  intro l hl
  unfold lineOk
  rw [hall l hl]
  simp

/-! Claim C1.  The claim states that `check_execution` removes its temporary
file on every exit path.  In the source, `os.unlink(temp_file)` sits on the
straight-line path after `subprocess.run` returns; when `subprocess.run`
raises `subprocess.TimeoutExpired`, or when any other exception is raised,
control jumps to the `except` handlers and the unlink never executes, so the
temporary file survives the call.  The surrounding code does clean up on
both normal-completion paths, which shows cleanup was the intent; the claim
is right about that intent and the code leaks the file on the exceptional
paths. -/

/-- Claim C1: on the timeout path (and on the executor-exception path) the
temporary file still exists after `check_execution` returns, while both
normal-completion paths do remove it.  This refutes cleanup on every exit
path and exhibits the leak at the failing input. -/
theorem C1_timeout_keeps_temp_file :
    (check_execution RunOutcome.timedOut).temp_file_exists = true ∧
    (check_execution RunOutcome.timedOut).ran_without_error = false ∧
    (check_execution (RunOutcome.raised (("spawn failure").data))).temp_file_exists = true ∧
    ∀ rc out err, (check_execution (RunOutcome.completed rc out err)).temp_file_exists = false := by
  refine ⟨rfl, rfl, rfl, ?_⟩
  intro rc out err
  rcases eq_or_ne rc 0 with h | h <;> simp [check_execution, h]

/-! Claim C5.  The claim states that empty or whitespace-only input is
syntactically invalid.  CPython's top-level grammar is
`file: [statements] ENDMARKER`, so `ast.parse("")` succeeds with an empty
module and `check_syntax` returns `True`; the claim fails already at the
empty string. -/

/-- Counterexample to claim C5 as stated: `check_syntax` on the empty string
returns `True`, not `False` (CPython parses it as the empty module). -/
theorem C5_counterexample : check_syntax (("").data) = true := by decide

/-- Claim C5 as amended: every input consisting only of whitespace
characters (space, tab, CR, LF) — including the empty string — is reported
syntactically VALID by `check_syntax`. -/
theorem C5_blank_is_valid (s : PyStr) (h : s.all isBlankChar = true) :
    check_syntax s = true :=
  pyParseOk_of_blank h

/-- Witness for C5_blank_is_valid at a concrete whitespace-only input. -/
theorem C5_blank_is_valid_witness :
    (("  \n\t\x0d").data).all isBlankChar = true ∧ check_syntax (("  \n\t\x0d").data) = true :=
  ⟨by decide, C5_blank_is_valid (("  \n\t\x0d").data) (by decide)⟩

/-! Claim C10.  The claim states that `imports_used` counts import-style
statements, a `from X import Y` statement contributing one.  The source
computes `code.count('import ') + code.count('from ')`, so a single
`from X import Y` statement contributes once to each addend, i.e. two. -/

/-- Counterexample to claim C10 as stated: the single statement
`from os import path` yields `imports_used = 2`, not 1. -/
theorem C10_counterexample :
    (analyze_code_quality (("from os import path").data)).imports_used = 2 ∧
    (analyze_code_quality (("from os import path").data)).imports_used ≠ 1 := by
  constructor <;> decide

/-- Claim C10 as amended: `imports_used` is the number of occurrences of the
substring `"import "` plus the number of occurrences of the substring
`"from "`, so a plain `import X` contributes one while a single
`from X import Y` statement contributes two. -/
theorem C10_import_counting :
    (∀ code, (analyze_code_quality code).imports_used =
        countSub code (("import ").data) + countSub code (("from ").data)) ∧
    (analyze_code_quality (("import os").data)).imports_used = 1 ∧
    (analyze_code_quality (("from os import path\nimport sys").data)).imports_used = 3 :=
  ⟨fun _ => rfl, by decide, by decide⟩

/-! Claim C8: the keyword-coverage fields of `evaluate_code`. -/

/-- Claim C8: with no expected keywords the match is vacuously total
(`ratio = 1`, `any_found = true`); otherwise the ratio is
`|found| / |expected|` and `any_found` holds exactly when some keyword was
found, where a keyword is found exactly when it occurs case-insensitively as
a substring of the snippet. -/
theorem C8_keyword_matching (run : PyStr → RunOutcome) (code : PyStr)
    (kws : List PyStr) (rt : ℚ) :
    (evaluate_code run code kws rt).found_keywords =
      (kws.filter fun kw => containsSub (lower code) (lower kw)).map lower ∧
    (evaluate_code run code kws rt).keyword_match_ratio =
      (if kws = [] then 1 else
        (((kws.filter fun kw => containsSub (lower code) (lower kw)).length : ℚ) /
          (kws.length : ℚ))) ∧
    (evaluate_code run code kws rt).contains_expected_keywords =
      (if kws = [] then true else
        decide (0 < (kws.filter fun kw => containsSub (lower code) (lower kw)).length)) := by
  refine ⟨rfl, ?_, ?_⟩ <;> cases kws <;>
    simp [evaluate_code, List.length_map]

/-! Claim C9: syntactically invalid snippets never reach the executor. -/

/-- Claim C9: when `check_syntax` reports failure, the evaluation does not
depend on the sandbox at all (any two subprocess behaviours yield the same
record), `runs_without_error` is `false`, and `execution_output` is empty. -/
theorem C9_syntax_gate (run₁ run₂ : PyStr → RunOutcome) (code : PyStr)
    (kws : List PyStr) (rt : ℚ) (h : check_syntax code = false) :
    evaluate_code run₁ code kws rt = evaluate_code run₂ code kws rt ∧
    (evaluate_code run₁ code kws rt).runs_without_error = false ∧
    (evaluate_code run₁ code kws rt).execution_output = [] := by
  refine ⟨?_, ?_, ?_⟩ <;> simp [evaluate_code, h]

/-- Witness for C9_syntax_gate: a lone `def` keyword is a syntax error, and
its evaluation reports no execution. -/
theorem C9_syntax_gate_witness :
    check_syntax (("def").data) = false ∧
    (evaluate_code (fun _ => RunOutcome.timedOut) (("def").data) [] 0).runs_without_error = false :=
  ⟨by decide,
    (C9_syntax_gate (fun _ => RunOutcome.timedOut)
      (fun _ => RunOutcome.completed 0 [] []) (("def").data) [] 0 (by decide)).2.1⟩

/-! Claim C4.  The claim states the composite score is the weighted sum over
the configured table with absent keys contributing zero (true), is bounded
by the sum of the weights (true), and that with the default table the
maximum 12.0 is attainable.  But `_calculate_score` tests `key in
evaluation` at the TOP level of the evaluation dictionary, and the quality
signals (`has_function_def`, `has_error_handling`, `has_docstring`) live
inside the nested `quality_metrics` dictionary, while `has_imports` and
`code_length_reasonable` are produced nowhere; those five keys therefore
always contribute zero and the attainable maximum is 3 + 2.5 + 2 = 7.5. -/

/-- The weighted sum under the default table collapses to the three
top-level boolean signals. -/
lemma calculate_score_default (ev : EvalRecord) :
    calculate_score default_evaluation_weights ev =
      boolVal ev.syntax_valid * 3 + boolVal ev.runs_without_error * (5/2) +
        boolVal ev.contains_expected_keywords * 2 := by
  simp [calculate_score, default_evaluation_weights, evalNumField]

/-- Counterexample to claim C4 as stated: no evaluation record produced by
`evaluate_code` scores 12 under the default weight table. -/
theorem C4_counterexample :
    ¬ ∃ (run : PyStr → RunOutcome) (code : PyStr) (kws : List PyStr) (rt : ℚ),
        calculate_score default_evaluation_weights (evaluate_code run code kws rt) = 12 := by
  rintro ⟨run, code, kws, rt, h⟩
  rw [calculate_score_default] at h
  cases hsv : (evaluate_code run code kws rt).syntax_valid <;>
    cases hrwe : (evaluate_code run code kws rt).runs_without_error <;>
      cases hcek : (evaluate_code run code kws rt).contains_expected_keywords <;>
        rw [hsv, hrwe, hcek] at h <;> norm_num [boolVal] at h

/-- Claim C4 as amended: the composite score is the weighted sum over the
default table with absent keys contributing zero; the sum of all configured
weights is 12, and the score is bounded not only by 12 but by 15/2 = 7.5,
which is attained (so 12 is never attained): only the three top-level
boolean signals carry weight. -/
theorem C4_weighted_sum_bounds :
    ((default_evaluation_weights.map Prod.snd).sum = 12) ∧
    (∀ (run : PyStr → RunOutcome) (code : PyStr) (kws : List PyStr) (rt : ℚ),
        calculate_score default_evaluation_weights (evaluate_code run code kws rt) ≤ 15/2) ∧
    (∃ (run : PyStr → RunOutcome) (code : PyStr) (kws : List PyStr) (rt : ℚ),
        calculate_score default_evaluation_weights (evaluate_code run code kws rt) = 15/2) ∧
    (15 : ℚ)/2 ≤ 12 := by
  refine ⟨by norm_num [default_evaluation_weights], ?_, ?_, by norm_num⟩
  · intro run code kws rt
    rw [calculate_score_default]
    cases hsv : (evaluate_code run code kws rt).syntax_valid <;>
      cases hrwe : (evaluate_code run code kws rt).runs_without_error <;>
        cases hcek : (evaluate_code run code kws rt).contains_expected_keywords <;>
          norm_num [boolVal]
  · refine ⟨fun _ => RunOutcome.completed 0 [] [], ("pass").data, [], 0, ?_⟩
    rw [calculate_score_default]
    have h1 : (evaluate_code (fun _ => RunOutcome.completed 0 [] [])
        (("pass").data) [] 0).syntax_valid = true := by decide
    have h2 : (evaluate_code (fun _ => RunOutcome.completed 0 [] [])
        (("pass").data) [] 0).runs_without_error = true := by decide
    have h3 : (evaluate_code (fun _ => RunOutcome.completed 0 [] [])
        (("pass").data) [] 0).contains_expected_keywords = true := by decide
    rw [h1, h2, h3]
    norm_num [boolVal]

/-! Claim C2.  The claim states that every model occurring in the result set
gets a `ModelAggregate` entry even with zero successful attempts.  But
`_calculate_statistics` guards the entry with `if model_results:` where
`model_results` keeps only successful rows, so a model all of whose attempts
failed is dropped from `model_scores` entirely. -/

/-- Looking a key up in a list built by a guarded `filterMap` over the key
list finds the constructed entry exactly when the key occurs and passes the
guard. -/
lemma lookup_filterMap_guard {β : Type} (cond : String → Bool) (entry : String → β)
    (m : String) :
    ∀ L : List String,
      List.lookup m (L.filterMap fun x => if cond x then some (x, entry x) else none) =
        if L.contains m && cond m then some (entry m) else none := by
  intro L
  induction L with
  | nil => simp
  | cons x xs ih =>
    rw [List.filterMap_cons]
    by_cases hx : cond x = true
    · rw [if_pos hx]
      by_cases hmx : x = m
      · subst hmx
        simp [List.lookup_cons, hx]
      · rw [List.lookup_cons]
        have hbeq : (x == m) = false := beq_false_of_ne hmx
        simp only [hbeq, List.contains_cons, ih]
        have hbeq2 : (m == x) = false := beq_false_of_ne (Ne.symm hmx)
        simp [hbeq2]
    · rw [if_neg hx, ih]
      rw [Bool.not_eq_true] at hx
      by_cases hmx : x = m
      · subst hmx
        simp [hx]
      · have hbeq2 : (m == x) = false := beq_false_of_ne (Ne.symm hmx)
        have hmx2 : ¬ m = x := fun h => hmx h.symm
        simp [hbeq2, hmx2]

/-- Characterisation of `model_scores` lookups. -/
lemma lookup_model_scores (results : List TestResult) (m : String) :
    List.lookup m (model_scores results) =
      if (modelsOf results).contains m && !(successful_for results m).isEmpty then
        some (model_entry results m)
      else none := by
  unfold model_scores
  have hfun :
      (fun x => if (successful_for results x).isEmpty then none
        else some (x, model_entry results x)) =
      (fun x => if !(successful_for results x).isEmpty then
        some (x, model_entry results x) else none) := by
    funext x
    by_cases h : (successful_for results x).isEmpty <;> simp [h]
  rw [hfun, lookup_filterMap_guard (fun x => !(successful_for results x).isEmpty)
    (fun x => model_entry results x) m (modelsOf results)]

/-- Membership in the first-occurrence deduplication. -/
lemma mem_dedupAcc (a : String) :
    ∀ (l : List String) (seen : List String),
      a ∈ dedupAcc seen l ↔ a ∈ l ∧ seen.contains a = false := by
  intro l
  induction l with
  | nil => intro seen; simp [dedupAcc]
  | cons x xs ih =>
    intro seen
    by_cases hx : seen.contains x = true
    · rw [dedupAcc, if_pos hx, ih]
      constructor
      · rintro ⟨h1, h2⟩; exact ⟨List.mem_cons_of_mem _ h1, h2⟩
      · rintro ⟨h1, h2⟩
        rcases List.mem_cons.mp h1 with rfl | h1
        · rw [hx] at h2; cases h2
        · exact ⟨h1, h2⟩
    · rw [dedupAcc, if_neg hx]
      rw [Bool.not_eq_true] at hx
      constructor
      · intro h
        rcases List.mem_cons.mp h with rfl | h
        · exact ⟨List.mem_cons_self _ _, hx⟩
        · rcases (ih (x :: seen)).mp h with ⟨h1, h2⟩
          rw [List.contains_cons, Bool.or_eq_false_iff] at h2
          exact ⟨List.mem_cons_of_mem _ h1, h2.2⟩
      · rintro ⟨h1, h2⟩
        rcases List.mem_cons.mp h1 with rfl | h1
        · exact List.mem_cons_self _ _
        · by_cases hax : a = x
          · subst hax; exact List.mem_cons_self _ _
          · refine List.mem_cons_of_mem _ ((ih (x :: seen)).mpr ⟨h1, ?_⟩)
            rw [List.contains_cons, Bool.or_eq_false_iff]
            exact ⟨beq_false_of_ne hax, h2⟩

/-- A model with a successful attempt occurs in the deduplicated model set. -/
lemma contains_modelsOf_of_successful {results : List TestResult} {m : String}
    (h : (successful_for results m).isEmpty = false) :
    (modelsOf results).contains m = true := by
  rw [List.isEmpty_eq_false_iff_exists_mem] at h
  obtain ⟨r, hr⟩ := h
  unfold successful_for at hr
  rw [List.mem_filter, Bool.and_eq_true, beq_iff_eq] at hr
  have hmem : m ∈ results.map fun r => r.model_name := by
    exact List.mem_map.mpr ⟨r, hr.1, hr.2.1⟩
  have : m ∈ modelsOf results := by
    unfold modelsOf
    exact (mem_dedupAcc m _ []).mpr ⟨hmem, rfl⟩
  exact List.elem_iff.mpr this

/-- Counterexample to claim C2 as stated: a result set in which model `m`
occurs with a single failed attempt produces NO `model_scores` entry for
`m` — the model is silently omitted instead of receiving a zero-valued
aggregate. -/
theorem C2_counterexample :
    List.lookup ("m") (model_scores [⟨("m"), false, 0, none⟩]) = none := rfl

/-- Claim C2 as amended: a model receives a `model_scores` entry exactly
when it has at least one successful attempt; a model all of whose attempts
failed is omitted from the per-model statistics (aggregation still does not
crash), and for every model that does receive an entry the success rate is
`successful / total * 100`. -/
theorem C2_model_aggregate (results : List TestResult) (m : String) :
    ((List.lookup m (model_scores results)).isSome ↔
      ∃ r ∈ results, r.model_name = m ∧ r.success = true) ∧
    (∀ ms, List.lookup m (model_scores results) = some ms →
      ms.success_rate =
        ((successful_for results m).length : ℚ) /
          ((attempts_for results m).length : ℚ) * 100) := by
  constructor
  · rw [lookup_model_scores]
    constructor
    · intro h
      by_cases hc : ((modelsOf results).contains m && !(successful_for results m).isEmpty) = true
      · rw [Bool.and_eq_true, Bool.not_eq_true'] at hc
        have := hc.2
        rw [List.isEmpty_eq_false_iff_exists_mem] at this
        obtain ⟨r, hr⟩ := this
        unfold successful_for at hr
        rw [List.mem_filter, Bool.and_eq_true, beq_iff_eq] at hr
        exact ⟨r, hr.1, hr.2.1, hr.2.2⟩
      · rw [Bool.not_eq_true] at hc
        rw [hc] at h
        simp at h
    · rintro ⟨r, hr, hname, hsucc⟩
      have hne : (successful_for results m).isEmpty = false := by
        rw [List.isEmpty_eq_false_iff_exists_mem]
        refine ⟨r, ?_⟩
        unfold successful_for
        rw [List.mem_filter, Bool.and_eq_true, beq_iff_eq]
        exact ⟨hr, hname, hsucc⟩
      rw [contains_modelsOf_of_successful hne, hne]
      simp
  · intro ms hms
    rw [lookup_model_scores] at hms
    by_cases hc : ((modelsOf results).contains m && !(successful_for results m).isEmpty) = true
    · rw [if_pos hc, Option.some_inj] at hms
      subst hms
      rfl
    · rw [Bool.not_eq_true] at hc
      rw [hc] at hms
      simp at hms

/-- Witness for C2_model_aggregate: one model with one successful and one
failed attempt is present in `model_scores` and reports the 1-out-of-2
success rate formula. -/
theorem C2_model_aggregate_witness :
    (model_entry [⟨("m"), true, 2, none⟩, ⟨("m"), false, 0, none⟩] ("m")).success_rate =
      ((successful_for [⟨("m"), true, 2, none⟩, ⟨("m"), false, 0, none⟩] ("m")).length : ℚ) /
        ((attempts_for [⟨("m"), true, 2, none⟩, ⟨("m"), false, 0, none⟩] ("m")).length : ℚ) * 100 :=
  (C2_model_aggregate [⟨("m"), true, 2, none⟩, ⟨("m"), false, 0, none⟩] ("m")).2
    (model_entry [⟨("m"), true, 2, none⟩, ⟨("m"), false, 0, none⟩] ("m")) rfl

/-! Claim C3.  The claim states that equal average scores are tie-broken by
success rate (then by name).  The source's sort key is `avg_score` alone:
`sorted(model_scores.items(), key=lambda x: x[1]['avg_score'], reverse=True)`.
Python's `sorted` is stable, so entries with equal average score stay in the
traversal order of the `model_scores` mapping, which follows the arbitrary
iteration order of the model set — the success rate never takes part. -/

/-- Counterexample to claim C3 as stated: when the grouping happens to be
traversed with B before A (a reachable iteration order of a Python set),
the ranking keeps B — the model with the LOWER success rate — in first
position despite the equal average scores, so A does not rank above B. -/
theorem C3_counterexample :
    sorted_models [(("B"), ⟨5, 80, 1⟩), (("A"), ⟨5, 100, 1⟩)] =
      [(("B"), ⟨5, 80, 1⟩), (("A"), ⟨5, 100, 1⟩)] := rfl

/-- Claim C3 as amended: the ranking sorts by `avg_score` descending only,
as a stable sort — the output is a permutation of the input, descending in
`avg_score`, and a pair of entries with equal `avg_score` keeps its input
order whatever the success rates are; no tie-break by success rate or model
name exists. -/
theorem C3_ranking_order :
    (∀ ms : List (String × ModelScore),
        (sorted_models ms).Perm ms ∧ (sorted_models ms).Sorted rankLe) ∧
    (∀ x y : String × ModelScore, x.2.avg_score = y.2.avg_score →
        sorted_models [x, y] = [x, y]) := by
  constructor
  · intro ms
    exact ⟨List.perm_insertionSort rankLe ms, List.sorted_insertionSort rankLe ms⟩
  · intro x y h
    show List.insertionSort rankLe [x, y] = [x, y]
    simp only [List.insertionSort, List.orderedInsert]
    rw [if_pos (show rankLe x y from h.ge)]

/-- Witness for C3_ranking_order at a concrete pair of tied entries. -/
theorem C3_ranking_order_witness :
    sorted_models [(("A"), ⟨5, 100, 1⟩), (("B"), ⟨5, 80, 1⟩)] =
      [(("A"), ⟨5, 100, 1⟩), (("B"), ⟨5, 80, 1⟩)] :=
  C3_ranking_order.2 (("A"), ⟨5, 100, 1⟩) (("B"), ⟨5, 80, 1⟩) rfl

/-! Claim C6: extraction from a python-tagged fenced block.  Helper lemmas
about `findSub` and `strip` on structured inputs come first. -/

/-- A list is a `isPrefixOf` of itself followed by anything. -/
lemma isPrefixOf_append_self : ∀ l r : PyStr, l.isPrefixOf (l ++ r) = true := by
  intro l r
  induction l with
  | nil => simp [List.isPrefixOf]
  | cons c cs ih => simp [List.isPrefixOf, ih]

/-- Leftmost-occurrence search: a pattern that starts with a backtick is
first found right after a backtick-free prefix. -/
lemma findSub_append_of_free (pat p : PyStr) (hp : pat = '`' :: p) :
    ∀ (s r : PyStr), ('`' : Char) ∉ s →
      findSub (s ++ pat ++ r) pat = some s.length := by
  intro s
  induction s with
  | nil =>
    intro r _
    rw [List.nil_append, hp]
    show findSub (('`' :: p) ++ r) ('`' :: p) = some 0
    rw [List.cons_append, findSub, if_pos]
    rw [← List.cons_append]
    exact isPrefixOf_append_self ('`' :: p) r
  | cons c cs ih =>
    intro r hc
    have hcne : ('`' : Char) ≠ c := fun h => hc (h ▸ List.mem_cons_self c cs)
    have hcs : ('`' : Char) ∉ cs := fun h => hc (List.mem_cons_of_mem c h)
    rw [List.cons_append, List.cons_append, findSub, if_neg, ih r hcs]
    · rfl
    · rw [hp]
      simp [List.isPrefixOf, beq_false_of_ne hcne]

/-- Dropping a whitespace head before a left strip changes nothing. -/
lemma lstrip_cons_blank {c : Char} (h : isStripSpace c = true) (l : PyStr) :
    lstrip (c :: l) = lstrip l := by
  simp [lstrip, List.dropWhile_cons, h]

/-- Left strip distributes over append: either the first part vanishes or
its strip survives intact. -/
lemma lstrip_append : ∀ a b : PyStr,
    lstrip (a ++ b) = if (lstrip a).isEmpty then lstrip b else lstrip a ++ b := by
  intro a b
  induction a with
  | nil => simp [lstrip]
  | cons c a ih =>
    by_cases hc : isStripSpace c = true
    · rw [List.cons_append, lstrip_cons_blank hc, lstrip_cons_blank hc, ih]
    · rw [Bool.not_eq_true] at hc
      simp [lstrip, List.dropWhile_cons, hc]

/-- A trailing whitespace character does not affect a right strip. -/
lemma rstrip_append_blank {c : Char} (h : isStripSpace c = true) (l : PyStr) :
    rstrip (l ++ [c]) = rstrip l := by
  simp [rstrip, List.reverse_append, List.dropWhile_cons, h]

/-- Stripping text wrapped in single newlines equals stripping the text. -/
lemma strip_newline_wrap (body : PyStr) :
    strip ('\n' :: (body ++ ['\n'])) = strip body := by
  unfold strip
  rw [lstrip_cons_blank (by decide)]
  by_cases he : (lstrip body).isEmpty = true
  · rw [lstrip_append]
    rw [if_pos he]
    rw [List.isEmpty_iff] at he
    rw [he]
    rfl
  · rw [lstrip_append, if_neg he]
    exact rstrip_append_blank (by decide) (lstrip body)

/-- Reduction of the extractor when both fence searches succeed. -/
lemma extract_eq_tagged (t : PyStr) (i j : Nat)
    (h1 : findSub t fencePython = some i)
    (h2 : findSub (t.drop (i + 9)) fence = some j) :
    extract_python_code t = strip ((t.drop (i + 9)).take j) := by
  unfold extract_python_code
  simp only [h1, h2]

/-- Claim C6: for every response text of the form
`pre ++ "```python\n" ++ body ++ "\n```" ++ post` in which the prefix and the
body contain no backtick (so the displayed fence is the python-tagged fence
and the displayed close is the next closing marker), extraction returns
exactly the fenced body, stripped of leading and trailing whitespace. -/
theorem C6_tagged_fence_extraction (pre body post : PyStr)
    (hpre : ('`' : Char) ∉ pre) (hbody : ('`' : Char) ∉ body) :
    extract_python_code
        (pre ++ (("```python\n").data) ++ body ++ (("\n```").data) ++ post) =
      strip body := by
  have hsplit :
      pre ++ (("```python\n").data) ++ body ++ (("\n```").data) ++ post =
        (pre ++ fencePython) ++ (('\n' :: (body ++ ['\n'])) ++ (fence ++ post)) := by
    have h1 : (("```python\n").data) = fencePython ++ ['\n'] := rfl
    have h2 : (("\n```").data) = '\n' :: fence := rfl
    rw [h1, h2]
    simp [List.append_assoc]
  rw [hsplit]
  set s2 : PyStr := '\n' :: (body ++ ['\n']) with hs2
  have hlen : (pre ++ fencePython).length = pre.length + 9 := by
    rw [List.length_append]
    rfl
  have hfind1 :
      findSub ((pre ++ fencePython) ++ (s2 ++ (fence ++ post))) fencePython =
        some pre.length :=
    findSub_append_of_free fencePython (("``python").data) rfl pre
      (s2 ++ (fence ++ post)) hpre
  have hdrop :
      ((pre ++ fencePython) ++ (s2 ++ (fence ++ post))).drop (pre.length + 9) =
        s2 ++ (fence ++ post) :=
    List.drop_left' hlen
  have hs2free : ('`' : Char) ∉ s2 := by
    rw [hs2]
    intro h
    rcases List.mem_cons.mp h with h | h
    · cases h
    · rcases List.mem_append.mp h with h | h
      · exact hbody h
      · rcases List.mem_cons.mp h with h | h
        · cases h
        · cases h
  have hfind2 : findSub (s2 ++ (fence ++ post)) fence = some s2.length := by
    rw [← List.append_assoc]
    exact findSub_append_of_free fence (("``").data) rfl s2 post hs2free
  have htake : ((s2 ++ (fence ++ post)).take s2.length) = s2 :=
    List.take_left' rfl
  rw [extract_eq_tagged _ pre.length s2.length hfind1 (by rw [hdrop]; exact hfind2)]
  rw [hdrop, htake, hs2]
  exact strip_newline_wrap body

/-- Witness for C6_tagged_fence_extraction: the specification's concrete
scenario, whose pieces are backtick-free, extracts exactly the function
body. -/
theorem C6_tagged_fence_extraction_witness :
    extract_python_code
        ((("Here:").data) ++ (("```python\n").data) ++ (("def f():\n    pass").data) ++
          (("\n```").data) ++ (("\nDone.").data)) =
      strip (("def f():\n    pass").data) ∧
    strip (("def f():\n    pass").data) = ("def f():\n    pass").data :=
  ⟨C6_tagged_fence_extraction (("Here:").data) (("def f():\n    pass").data)
      (("\nDone.").data) (by decide) (by decide),
    by decide⟩

/-! Claim C7: the generic-fence fallback.  The claim states the first line
of the first odd-indexed segment is removed if and only if that line NAMES
the language ("python"/"py").  The source's test is
`any(lang in lines[0].lower() for lang in ['python', 'py'])` — substring
containment, not naming — so a first line that merely contains "py"
(e.g. `copy = 1`) is also removed. -/

/-- Every split has at least one segment. -/
lemma splitSubFuel_length_pos (pat : PyStr) :
    ∀ (fuel : Nat) (t acc : PyStr), 1 ≤ (splitSubFuel pat fuel t acc).length := by
  intro fuel
  induction fuel with
  | zero => intro t acc; cases t <;> simp [splitSubFuel]
  | succ fuel ih =>
    intro t acc
    cases t with
    | nil => simp [splitSubFuel]
    | cons c rest =>
      rw [splitSubFuel]
      by_cases hpre : pat.isPrefixOf (c :: rest) = true
      · simp [hpre]
      · rw [Bool.not_eq_true] at hpre
        simp only [hpre, Bool.false_eq_true, if_false]
        exact ih rest (c :: acc)

/-- When the pattern occurs in the text, splitting produces at least two
segments. -/
lemma splitSubFuel_length_two (pat : PyStr) (hpat : pat.isEmpty = false) :
    ∀ (fuel : Nat) (t acc : PyStr), t.length ≤ fuel →
      (findSub t pat).isSome = true → 2 ≤ (splitSubFuel pat fuel t acc).length := by
  intro fuel
  induction fuel with
  | zero =>
    intro t acc hlen hfind
    rw [List.length_eq_zero.mp (Nat.le_zero.mp hlen)] at hfind
    rw [findSub, if_neg (by rw [hpat]; exact Bool.false_ne_true)] at hfind
    cases hfind
  | succ fuel ih =>
    intro t acc hlen hfind
    cases t with
    | nil =>
      rw [findSub, if_neg (by rw [hpat]; exact Bool.false_ne_true)] at hfind
      cases hfind
    | cons c rest =>
      rw [splitSubFuel]
      by_cases hpre : pat.isPrefixOf (c :: rest) = true
      · simp only [hpre, if_true, List.length_cons]
        have := splitSubFuel_length_pos pat fuel (rest.drop (pat.length - 1)) []
        omega
      · rw [Bool.not_eq_true] at hpre
        simp only [hpre, Bool.false_eq_true, if_false]
        rw [findSub, if_neg (by rw [hpre]; exact Bool.false_ne_true)] at hfind
        rw [Option.isSome_map'] at hfind
        exact ih rest (c :: acc) (Nat.le_of_succ_le_succ hlen) hfind

/-- Counterexample to claim C7 as stated: in
`"see\n```\ncopy = 1\n```\ndone"` the first odd-indexed segment's first
line is `copy = 1`, which does not name the language, so the claim requires
the segment to be returned whole (`"copy = 1"`); the code instead strips the
line (its lowercase form contains `"py"`) and returns the empty string. -/
theorem C7_counterexample :
    extract_python_code (("see\n```\ncopy = 1\n```\ndone").data) = ("").data ∧
    extract_python_code (("see\n```\ncopy = 1\n```\ndone").data) ≠ ("copy = 1").data := by
  constructor <;> decide

/-- Claim C7 as amended: when no `"```python"` marker occurs but generic
fence markers do, extraction returns the trimmed first odd-indexed segment
of the split on the fence marker, with its first line removed if and only
if the lowercase first line CONTAINS `"python"` or `"py"` as a substring
(so a line that merely contains `"py"` is removed too); otherwise the
segment is returned whole, trimmed. -/
theorem C7_generic_fallback (t : PyStr)
    (h1 : containsSub t fencePython = false)
    (h2 : containsSub t fence = true) :
    ∃ seg tail2, (splitOnSub t fence).drop 1 = seg :: tail2 ∧
      extract_python_code t =
        (match splitChar '\n' (strip seg) with
         | [] => strip seg
         | l0 :: rest =>
           if containsSub (lower l0) wordPython || containsSub (lower l0) wordPy then
             strip (joinChar '\n' rest)
           else strip seg) := by
  have hnone : findSub t fencePython = none := by
    unfold containsSub at h1
    exact Option.not_isSome_iff_eq_none.mp (by rw [h1]; exact Bool.false_ne_true)
  have hlen2 : 2 ≤ (splitOnSub t fence).length :=
    splitSubFuel_length_two fence rfl t.length t [] (Nat.le_refl _) h2
  have hdropne : (splitOnSub t fence).drop 1 ≠ [] := by
    intro hd
    rw [List.drop_eq_nil_iff] at hd
    omega
  obtain ⟨seg, tail2, hdrop⟩ : ∃ seg tail2, (splitOnSub t fence).drop 1 = seg :: tail2 := by
    cases hd : (splitOnSub t fence).drop 1 with
    | nil => exact absurd hd hdropne
    | cons a b => exact ⟨a, b, rfl⟩
  refine ⟨seg, tail2, hdrop, ?_⟩
  unfold extract_python_code
  simp only [hnone]
  unfold genericFence
  rw [if_pos h2]
  simp only [hdrop]

/-- Witness for C7_generic_fallback at a concrete fallback input whose
segment starts with a language-tag line. -/
theorem C7_generic_fallback_witness :
    ∃ seg tail2,
      (splitOnSub (("a\n```\npy\npass\n```\nb").data) fence).drop 1 = seg :: tail2 ∧
      extract_python_code (("a\n```\npy\npass\n```\nb").data) =
        (match splitChar '\n' (strip seg) with
         | [] => strip seg
         | l0 :: rest =>
           if containsSub (lower l0) wordPython || containsSub (lower l0) wordPy then
             strip (joinChar '\n' rest)
           else strip seg) :=
  C7_generic_fallback (("a\n```\npy\npass\n```\nb").data) (by decide) (by decide)

end Allama
